import Mathlib

/-!
Verification development for the liquid contract dispatch engine.

Embedded components:
* `Hash` — the fixed-width hash value type of `src/primitives/src/types/hash.rs`
  (hex parsing in `From<&str>`, stringification in `ToString`).  A Rust panic is
  modelled as `Option.none`; bytes of `[u8; 32]` are `Nat` values below 256.
* the dispatch engine generated by `src/lang/macro/src/codegen/dispatch.rs`
  (`generate_dispatch`, `generate_dispatch_fragment`, `deploy`): a contract is a
  list of function descriptors, a call is dispatched by scanning the External
  functions' selectors in declaration order, and the observable environment
  effects (function invocation, storage flush, `env::finish`, `env::revert`)
  are recorded in an event trace.
-/

set_option autoImplicit false

namespace Liquid

/-! ### Hash (src/primitives/src/types/hash.rs) -/

/-- `HASH_LENGTH` from hash.rs. -/
def HASH_LENGTH : Nat := 32

/-- `Hash` wraps a 32-byte array `[u8; HASH_LENGTH]`; bytes are `Nat` values,
with the `u8` bound (`< 256`) and length 32 carried as hypotheses where needed. -/
structure Hash where
  bytes : List Nat
deriving DecidableEq

/-- Rust `str::is_ascii`, per character: the code point is below 128. -/
def isAsciiChar (c : Char) : Bool := c.toNat < 128

/-- Rust `char::to_digit(16)`: digits `0`-`9`, `a`-`f` and `A`-`F` are accepted
(values 0..15), everything else yields `none` (the source `unwrap`s, i.e. panics). -/
def toDigit16 (c : Char) : Option Nat :=
  if 48 ≤ c.toNat ∧ c.toNat ≤ 57 then some (c.toNat - 48)
  else if 97 ≤ c.toNat ∧ c.toNat ≤ 102 then some (c.toNat - 87)
  else if 65 ≤ c.toNat ∧ c.toNat ≤ 70 then some (c.toNat - 55)
  else none

/-- The digit loop of `From<&str> for Hash`: for each `i`, byte `i` is
`(high << 4) + low` from the hex digits at positions `2*i` and `2*i+1`.
The source indexes a slice of even length; odd length cannot occur there. -/
def decodeHexPairs : List Char → Option (List Nat)
  | [] => some []
  | [_] => none
  | c1 :: c2 :: rest =>
    match toDigit16 c1, toDigit16 c2, decodeHexPairs rest with
    | some hi, some lo, some bs => some ((hi * 16 + lo) :: bs)
    | _, _, _ => none

/-- `From<&str> for Hash`: reject non-ASCII input, strip an optional `0x`/`0X`
prefix while checking the exact length (66 with prefix, 64 without), then decode
the 32 hex-digit pairs.  `none` models the source's `panic!`/`unwrap` paths. -/
def Hash.fromStr (s : String) : Option Hash :=
  let cs := s.data
  if cs.all isAsciiChar then
    if cs.take 2 = ['0', 'x'] ∨ cs.take 2 = ['0', 'X'] then
      if cs.length = HASH_LENGTH * 2 + 2 then (decodeHexPairs (cs.drop 2)).map Hash.mk
      else none
    else if cs.length = HASH_LENGTH * 2 then (decodeHexPairs cs).map Hash.mk
    else none
  else none

/-- `core::char::from_digit(n, 16)` on the values reachable from a `u8` nibble:
`0`-`9` then lowercase `a`-`f`.  Values above 15 are unreachable in the source
(`digit >> 4` and `digit & 0x0f` of a `u8` are below 16). -/
def hexDigitChar : Nat → Char
  | 0 => '0' | 1 => '1' | 2 => '2' | 3 => '3' | 4 => '4' | 5 => '5' | 6 => '6'
  | 7 => '7' | 8 => '8' | 9 => '9' | 10 => 'a' | 11 => 'b' | 12 => 'c'
  | 13 => 'd' | 14 => 'e' | 15 => 'f' | _ => ' '

/-- The emission loop of `ToString for Hash`: for each byte, push the high
nibble (`digit >> 4`, i.e. `b / 16`) then the low nibble (`digit & 0x0f`,
i.e. `b % 16`). -/
def bytesToHexChars : List Nat → List Char
  | [] => []
  | b :: bs => hexDigitChar (b / 16) :: hexDigitChar (b % 16) :: bytesToHexChars bs

/-- `ToString for Hash`: `"0x"` followed by two lowercase hex digits per byte. -/
def Hash.toString (h : Hash) : String :=
  ⟨'0' :: 'x' :: bytesToHexChars h.bytes⟩

/-! ### Dispatch engine (src/lang/macro/src/codegen/dispatch.rs)

The macro generates one dispatch fragment per contract function, in
declaration order; non-External functions generate no fragment at all
(`generate_dispatch_fragment` returns an empty token stream for them).  The
generated `Storage::dispatch` creates fresh storage, reads call data in call
mode, runs the fragments in order, and falls through to `UnknownSelector`.
External collaborators (the ABI codec, the storage `new`/`flush` contract)
are fields of the embedded descriptors/contract. -/

/-- `ir::FunctionKind`: Constructor, External (with its `fn_id`) or Internal. -/
inductive FunctionKind where
  | ctor
  | external (fnId : Nat)
  | internal
deriving DecidableEq

/-- One contract function as seen by the generated dispatch code:
its kind, its `SELECTOR` (from the generated `FnSelector` impl), the ABI
decoder for its input shape (`<Input as Decode>::decode`, an external
collaborator, `none` on decode failure), the body `storage.fn_name(args)`
returning updated storage plus the ABI-encoded result, the `IS_MUT` flag
(from the generated `FnMutability` impl) and whether the `FnOutput::Output`
type is the unit type `()` (the `TypeId` comparison in the fragment). -/
structure ContractFn (S : Type) where
  kind : FunctionKind
  selector : Nat
  decode : List Nat → Option (List Nat)
  body : S → List Nat → S × List Nat
  is_mut : Bool
  outputUnit : Bool

/-- Observable environment effects of one entry-point run, in order. -/
inductive Event where
  | invoke (i : Nat)
  | invokeCtor
  | flush
  | finish (payload : List Nat)
deriving DecidableEq

/-- Is the event an invocation of a contract function (External or the
Constructor)? -/
def isInvocation : Event → Bool
  | Event.invoke _ => true
  | Event.invokeCtor => true
  | _ => false

def isFlush : Event → Bool
  | Event.flush => true
  | _ => false

def isFinish : Event → Bool
  | Event.finish _ => true
  | _ => false

/-- `liquid_lang::DispatchError` as used by the generated dispatch code. -/
inductive DispatchError where
  | couldNotReadInput
  | unknownSelector
  | invalidParams
deriving DecidableEq

/-- Call data as delivered by `liquid_core::env::get_call_data` in call mode:
a selector prefix plus the remaining argument bytes (`CallFrame` in the spec).
In deploy mode the selector field is simply never read. -/
structure CallData where
  selector : Nat
  data : List Nat

/-- Is the function External? (`matches!(&func.kind, FunctionKind::External(_))`). -/
def isExternalFn {S : Type} (fn : ContractFn S) : Bool :=
  match fn.kind with
  | FunctionKind.external _ => true
  | _ => false

/-- Does this fragment's guard `selector == <marker as FnSelector>::SELECTOR`
fire?  Only External functions have a fragment at all. -/
def matchesSelector {S : Type} (fn : ContractFn S) (selector : Nat) : Bool :=
  isExternalFn fn && fn.selector == selector

/-- The body of a matched dispatch fragment (`generate_dispatch_fragment`):
decode the arguments (failure returns `Err(InvalidParams)` before any effect),
invoke the function, flush storage when `IS_MUT`, and call `env::finish` with
the encoded result when the output type is not `()`. -/
def fragmentResult {S : Type} (flushFn : S → S) (fn : ContractFn S) (i : Nat)
    (data : List Nat) (s : S) : List Event × Except DispatchError S :=
  match fn.decode data with
  | none => ([], Except.error DispatchError.invalidParams)
  | some args =>
    let r := fn.body s args
    let flushed : S × List Event :=
      if fn.is_mut then (flushFn r.1, [Event.flush]) else (r.1, [])
    let finished : List Event :=
      if fn.outputUnit then [] else [Event.finish r.2]
    (Event.invoke i :: (flushed.2 ++ finished), Except.ok flushed.1)

/-- One generated fragment: `none` when the fragment falls through (no guard
match, or no fragment was generated because the function is not External). -/
def dispatchFragment {S : Type} (flushFn : S → S) (fn : ContractFn S) (i : Nat)
    (selector : Nat) (data : List Nat) (s : S) :
    Option (List Event × Except DispatchError S) :=
  if matchesSelector fn selector then some (fragmentResult flushFn fn i data s)
  else none

/-- The fragment sequence of `generate_dispatch`, in declaration order,
falling through to `Err(UnknownSelector)` after the last fragment. -/
def dispatchLoop {S : Type} (flushFn : S → S) (selector : Nat) (data : List Nat)
    (s : S) : List (ContractFn S) → Nat → List Event × Except DispatchError S
  | [], _ => ([], Except.error DispatchError.unknownSelector)
  | fn :: rest, i =>
    match dispatchFragment flushFn fn i selector data s with
    | some r => r
    | none => dispatchLoop flushFn selector data s rest (i + 1)

/-- A contract as the codegen sees it: the declared functions (`contract.functions`,
in declaration order), the constructor (`contract.constructor`, held separately
in the IR) with its input decoder and body, and the storage collaborator's
`New::new` and `Flush::flush`. -/
structure Contract (S : Type) where
  functions : List (ContractFn S)
  ctorDecode : List Nat → Option (List Nat)
  ctorBody : S → List Nat → S
  newStorage : S
  flushFn : S → S

/-- The generated `Storage::dispatch`: fresh storage, read call data in call
mode (`none` models `Err` from the environment), then run the fragments in
declaration order. -/
def Contract.dispatch {S : Type} (c : Contract S) (callData : Option CallData) :
    List Event × Except DispatchError S :=
  match callData with
  | none => ([], Except.error DispatchError.couldNotReadInput)
  | some cd => dispatchLoop c.flushFn cd.selector cd.data c.newStorage c.functions 0

/-- Outcome of the `deploy` entry point: silent success or `env::revert`
with a diagnostic message. -/
inductive DeployResult where
  | done
  | revert (msg : String)
deriving DecidableEq

/-- The generated `deploy` entry point: fresh storage, read call data in
deploy mode, decode the payload against the constructor's input shape only
(the selector field is never consulted), invoke the constructor, flush
unconditionally; on decode failure revert with "invalid params" having
invoked nothing and flushed nothing. -/
def Contract.deploy {S : Type} (c : Contract S) (callData : Option CallData) :
    List Event × DeployResult × Option S :=
  match callData with
  | none => ([], DeployResult.revert "could not read input", none)
  | some cd =>
    match c.ctorDecode cd.data with
    | none => ([], DeployResult.revert "invalid params", none)
    | some args =>
      let s1 := c.ctorBody c.newStorage args
      ([Event.invokeCtor, Event.flush], DeployResult.done, some (c.flushFn s1))

/-- The selectors of the External functions, in declaration order. -/
def externalSelectors {S : Type} (fns : List (ContractFn S)) : List Nat :=
  (fns.filter isExternalFn).map ContractFn.selector

/-- Build-time failure of selector-table construction. -/
inductive BuildError where
  | selectorCollision
deriving DecidableEq

/-- Modelled from the spec: construction of the selector table at contract
build/load time.  The mechanism in the source is the set of `TyMappingHelper`
trait impls emitted by `utils::generate_ty_mapping` (a file not shown), where
two External functions with equal selectors produce conflicting impls and the
build fails; the spec requires construction to reject any collision fast with
a `SelectorCollision` error, never deferring it to call time. -/
def Contract.buildSelectorTable {S : Type} (c : Contract S) :
    Except BuildError (List (ContractFn S)) :=
  if (externalSelectors c.functions).Nodup then Except.ok (c.functions.filter isExternalFn)
  else Except.error BuildError.selectorCollision

/-- Modelled from the spec: the ABI codec's decoder for an empty input shape
(a function with zero non-receiver parameters, whose generated pattern binds
nothing).  Per the spec, such a decode consumes no bytes and trivially
succeeds on every payload. -/
def unitDecode : List Nat → Option (List Nat) := fun _ => some []

/-! ### Concrete contracts used to instantiate the theorems

These mirror the spec's concrete scenario: a contract over a `Nat` counter
with a non-mutating `get()` returning the value and a mutating `set(u32)`
returning nothing. -/

/-- `get() -> u32`, non-mutating, zero non-receiver parameters. -/
def getFn : ContractFn Nat :=
  { kind := FunctionKind.external 1
    selector := 11
    decode := unitDecode
    body := fun s _ => (s, [s])
    is_mut := false
    outputUnit := false }

/-- `set(u32)`, mutating, unit return; decodes exactly one argument word. -/
def setFn : ContractFn Nat :=
  { kind := FunctionKind.external 2
    selector := 22
    decode := fun d => match d with | [v] => some [v] | _ => none
    body := fun _ args => (args.headI, [])
    is_mut := true
    outputUnit := true }

/-- The counter contract: `get` then `set`, a one-argument constructor. -/
def counterContract : Contract Nat :=
  { functions := [getFn, setFn]
    ctorDecode := fun d => match d with | [v] => some [v] | _ => none
    ctorBody := fun _ args => args.headI
    newStorage := 0
    flushFn := fun s => s }

/-- An External function whose argument decoding always fails. -/
def decodeFailFn : ContractFn Nat :=
  { kind := FunctionKind.external 1
    selector := 7
    decode := fun _ => none
    body := fun s a => (s, a)
    is_mut := true
    outputUnit := false }

/-- A contract whose sole External function rejects every payload. -/
def decodeFailContract : Contract Nat :=
  { functions := [decodeFailFn]
    ctorDecode := fun _ => some []
    ctorBody := fun s _ => s
    newStorage := 0
    flushFn := fun s => s }

/-- First of two distinct External functions sharing selector 5. -/
def collideFn1 : ContractFn Nat :=
  { kind := FunctionKind.external 1
    selector := 5
    decode := fun _ => some []
    body := fun s _ => (s, [])
    is_mut := false
    outputUnit := true }

/-- Second of two distinct External functions sharing selector 5. -/
def collideFn2 : ContractFn Nat :=
  { kind := FunctionKind.external 2
    selector := 5
    decode := fun _ => some []
    body := fun s _ => (s + 1, [])
    is_mut := true
    outputUnit := true }

/-- A contract with two distinct External functions sharing selector 5. -/
def collidingContract : Contract Nat :=
  { functions := [collideFn1, collideFn2]
    ctorDecode := fun _ => some []
    ctorBody := fun s _ => s
    newStorage := 0
    flushFn := fun s => s }

/-! ### Lemmas about the fragment scan -/

/-- If no fragment guard fires, the scan falls through to `UnknownSelector`
with an empty event trace. -/
theorem dispatchLoop_of_no_match {S : Type} (flushFn : S → S) (sel : Nat)
    (data : List Nat) (s : S) :
    ∀ (fns : List (ContractFn S)) (i0 : Nat),
      (∀ fn ∈ fns, matchesSelector fn sel = false) →
      dispatchLoop flushFn sel data s fns i0
        = ([], Except.error DispatchError.unknownSelector)
  | [], _, _ => rfl
  | fn :: rest, i0, h => by
    have h1 : matchesSelector fn sel = false := h fn (List.mem_cons_self fn rest)
    have h2 := dispatchLoop_of_no_match flushFn sel data s rest (i0 + 1)
      (fun g hg => h g (List.mem_cons_of_mem fn hg))
    simp [dispatchLoop, dispatchFragment, h1, h2]

/-- The scan runs the fragment of the first matching function, skipping the
non-matching prefix. -/
theorem dispatchLoop_first_match {S : Type} (flushFn : S → S) (sel : Nat)
    (data : List Nat) (s : S) :
    ∀ (fns : List (ContractFn S)) (i0 i : Nat) (fn : ContractFn S),
      fns.get? i = some fn →
      matchesSelector fn sel = true →
      (∀ k fn', k < i → fns.get? k = some fn' → matchesSelector fn' sel = false) →
      dispatchLoop flushFn sel data s fns i0 = fragmentResult flushFn fn (i0 + i) data s
  | [], _, i, fn, hget, _, _ => by simp [List.get?] at hget
  | f :: rest, i0, 0, fn, hget, hmatch, _ => by
    have hf : f = fn := by simpa [List.get?] using hget
    subst hf
    simp [dispatchLoop, dispatchFragment, hmatch]
  | f :: rest, i0, j + 1, fn, hget, hmatch, hfirst => by
    have h0 : matchesSelector f sel = false := hfirst 0 f (Nat.succ_pos j) rfl
    have hget' : rest.get? j = some fn := by simpa [List.get?] using hget
    have hfirst' : ∀ k fn', k < j → rest.get? k = some fn' →
        matchesSelector fn' sel = false := by
      intro k fn' hk hg
      exact hfirst (k + 1) fn' (by omega) (by simpa [List.get?] using hg)
    have hrec := dispatchLoop_first_match flushFn sel data s rest (i0 + 1) j fn
      hget' hmatch hfirst'
    simp [dispatchLoop, dispatchFragment, h0, hrec]
    congr 1
    omega

/-- `Storage::dispatch` on a frame whose first matching fragment sits at
declaration index `i` runs exactly that fragment. -/
theorem dispatch_first_match {S : Type} (c : Contract S) (sel : Nat)
    (data : List Nat) (i : Nat) (fn : ContractFn S)
    (hget : c.functions.get? i = some fn)
    (hmatch : matchesSelector fn sel = true)
    (hfirst : ∀ k fn', k < i → c.functions.get? k = some fn' →
      matchesSelector fn' sel = false) :
    c.dispatch (some ⟨sel, data⟩) = fragmentResult c.flushFn fn i data c.newStorage := by
  have := dispatchLoop_first_match c.flushFn sel data c.newStorage c.functions 0 i fn
    hget hmatch hfirst
  simpa [Contract.dispatch] using this

/-- The event trace a matched fragment produces once decoding succeeded:
the invocation, then the conditional flush, then the conditional finish. -/
def traceEvents (i : Nat) (mt ut : Bool) (r : List Nat) : List Event :=
  Event.invoke i ::
    ((if mt then [Event.flush] else []) ++ (if ut then [] else [Event.finish r]))

theorem fragmentResult_decode_none {S : Type} (flushFn : S → S) (fn : ContractFn S)
    (i : Nat) (data : List Nat) (s : S) (h : fn.decode data = none) :
    fragmentResult flushFn fn i data s = ([], Except.error DispatchError.invalidParams) := by
  simp [fragmentResult, h]

theorem fragmentResult_decode_some {S : Type} (flushFn : S → S) (fn : ContractFn S)
    (i : Nat) (data : List Nat) (s : S) (args : List Nat)
    (h : fn.decode data = some args) :
    fragmentResult flushFn fn i data s =
      (traceEvents i fn.is_mut fn.outputUnit (fn.body s args).2,
       Except.ok (if fn.is_mut then flushFn (fn.body s args).1 else (fn.body s args).1)) := by
  cases hm : fn.is_mut <;> cases hu : fn.outputUnit <;>
    simp [fragmentResult, h, traceEvents, hm, hu]

theorem traceEvents_filter_invocation (i : Nat) (mt ut : Bool) (r : List Nat) :
    (traceEvents i mt ut r).filter isInvocation = [Event.invoke i] := by
  cases mt <;> cases ut <;> simp [traceEvents, isInvocation]

theorem traceEvents_countP_flush (i : Nat) (mt ut : Bool) (r : List Nat) :
    (traceEvents i mt ut r).countP isFlush = if mt then 1 else 0 := by
  cases mt <;> cases ut <;> simp [traceEvents, List.countP_cons, isFlush]

theorem traceEvents_filter_finish (i : Nat) (mt ut : Bool) (r : List Nat) :
    (traceEvents i mt ut r).filter isFinish = if ut then [] else [Event.finish r] := by
  cases mt <;> cases ut <;> simp [traceEvents, isFinish]

theorem traceEvents_flush_after_invoke (i : Nat) (mt ut : Bool) (r : List Nat) :
    ∀ k, (traceEvents i mt ut r).get? k = some Event.flush →
      ∃ j, j < k ∧ (traceEvents i mt ut r).get? j = some (Event.invoke i) := by
  cases mt <;> cases ut <;> intro k hk
  · rcases k with _ | _ | k <;> simp [traceEvents, List.get?] at hk
  · rcases k with _ | _ | k <;> simp [traceEvents, List.get?] at hk
  · rcases k with _ | _ | _ | k
    · simp [traceEvents, List.get?] at hk
    · exact ⟨0, Nat.zero_lt_one, by simp [traceEvents, List.get?]⟩
    · simp [traceEvents, List.get?] at hk
    · simp [traceEvents, List.get?] at hk
  · rcases k with _ | _ | k
    · simp [traceEvents, List.get?] at hk
    · exact ⟨0, Nat.zero_lt_one, by simp [traceEvents, List.get?]⟩
    · simp [traceEvents, List.get?] at hk

theorem traceEvents_flush_before_finish (i : Nat) (mt ut : Bool) (r : List Nat) :
    ∀ k m p, (traceEvents i mt ut r).get? k = some Event.flush →
      (traceEvents i mt ut r).get? m = some (Event.finish p) → k < m := by
  cases mt <;> cases ut <;> intro k m p hk hm
  · rcases k with _ | _ | k <;> simp [traceEvents, List.get?] at hk
  · rcases k with _ | _ | k <;> simp [traceEvents, List.get?] at hk
  · rcases k with _ | _ | _ | k
    · simp [traceEvents, List.get?] at hk
    · rcases m with _ | _ | _ | m <;> simp [traceEvents, List.get?] at hm
      omega
    · simp [traceEvents, List.get?] at hk
    · simp [traceEvents, List.get?] at hk
  · rcases k with _ | _ | k
    · simp [traceEvents, List.get?] at hk
    · rcases m with _ | _ | m <;> simp [traceEvents, List.get?] at hm
    · simp [traceEvents, List.get?] at hk

/-! ### Claim theorems -/

/-- C1: if two External functions of one contract compute equal selector
values, construction of the selector table fails fast with a
`SelectorCollision` error — the collision is rejected at build/load time,
not tolerated until call time. -/
theorem selector_collision_fails_build {S : Type} (c : Contract S)
    (pre mid post : List (ContractFn S)) (f g : ContractFn S)
    (hfns : c.functions = pre ++ f :: (mid ++ g :: post))
    (hf : isExternalFn f = true) (hg : isExternalFn g = true)
    (hsel : f.selector = g.selector) :
    c.buildSelectorTable = Except.error BuildError.selectorCollision := by
  have hnd : ¬ (externalSelectors c.functions).Nodup := by
    rw [hfns]
    intro hnodup
    have hexp : externalSelectors (pre ++ f :: (mid ++ g :: post))
        = (pre.filter isExternalFn).map ContractFn.selector
          ++ f.selector :: ((mid.filter isExternalFn).map ContractFn.selector
            ++ g.selector :: (post.filter isExternalFn).map ContractFn.selector) := by
      simp [externalSelectors, List.filter_append, List.filter_cons, hf, hg]
    rw [hsel] at hexp
    rw [hexp] at hnodup
    have h1 : List.Sublist [g.selector]
        (g.selector :: (post.filter isExternalFn).map ContractFn.selector) :=
      List.Sublist.cons₂ _ (List.nil_sublist _)
    have h2 : List.Sublist [g.selector]
        ((mid.filter isExternalFn).map ContractFn.selector
          ++ g.selector :: (post.filter isExternalFn).map ContractFn.selector) :=
      h1.trans (List.sublist_append_right _ _)
    have h3 : List.Sublist [g.selector, g.selector]
        (g.selector :: ((mid.filter isExternalFn).map ContractFn.selector
          ++ g.selector :: (post.filter isExternalFn).map ContractFn.selector)) :=
      List.Sublist.cons₂ _ h2
    have h4 : List.Sublist [g.selector, g.selector]
        ((pre.filter isExternalFn).map ContractFn.selector
          ++ g.selector :: ((mid.filter isExternalFn).map ContractFn.selector
            ++ g.selector :: (post.filter isExternalFn).map ContractFn.selector)) :=
      h3.trans (List.sublist_append_right _ _)
    have hdup := List.Nodup.sublist h4 hnodup
    simp at hdup
  unfold Contract.buildSelectorTable
  rw [if_neg hnd]

/-- C1 witness: the colliding two-function contract is rejected at build time. -/
theorem selector_collision_fails_build_witness :
    collidingContract.buildSelectorTable = Except.error BuildError.selectorCollision :=
  selector_collision_fails_build collidingContract [] [] [] collideFn1 collideFn2
    rfl rfl rfl rfl

/-- C2 (counterexample to the claim as stated): in `decodeFailContract` the
call frame `(7, [1])` has the exact selector of registered External function
0, yet dispatch invokes no function at all — it terminates with
`InvalidParams` because the argument bytes fail to decode, so "invokes
exactly F exactly once" does not hold for every frame whose selector
matches. -/
theorem matched_selector_without_invocation :
    decodeFailContract.functions.get? 0 = some decodeFailFn
    ∧ isExternalFn decodeFailFn = true
    ∧ decodeFailFn.selector = 7
    ∧ (decodeFailContract.dispatch (some ⟨7, [1]⟩)).1.countP isInvocation = 0
    ∧ (decodeFailContract.dispatch (some ⟨7, [1]⟩)).2
        = Except.error DispatchError.invalidParams :=
  ⟨rfl, rfl, rfl, rfl, rfl⟩

/-- C2 (amended: the argument bytes must also decode successfully): for every
call frame whose selector equals the SELECTOR of a registered External
function, dispatch scans the fragments in declaration order, takes the first
exact match `F` (index `i`), and — the arguments having decoded — invokes
exactly `F`, exactly once, invoking no other registered function and never
the Constructor. -/
theorem dispatch_invokes_first_match_once {S : Type} (c : Contract S) (sel : Nat)
    (data : List Nat) (i : Nat) (fn : ContractFn S) (args : List Nat)
    (hget : c.functions.get? i = some fn)
    (hext : isExternalFn fn = true)
    (hsel : fn.selector = sel)
    (hfirst : ∀ k fn', k < i → c.functions.get? k = some fn' →
      matchesSelector fn' sel = false)
    (hdec : fn.decode data = some args) :
    ∃ evs s', c.dispatch (some ⟨sel, data⟩) = (evs, Except.ok s')
      ∧ evs.filter isInvocation = [Event.invoke i] := by
  have hmatch : matchesSelector fn sel = true := by
    simp [matchesSelector, hext, hsel]
  rw [dispatch_first_match c sel data i fn hget hmatch hfirst,
    fragmentResult_decode_some c.flushFn fn i data c.newStorage args hdec]
  exact ⟨_, _, rfl, traceEvents_filter_invocation i fn.is_mut fn.outputUnit _⟩

/-- C2 witness: frame `(22, [7])` on the counter contract invokes exactly
the `set` function (declaration index 1), once. -/
theorem dispatch_invokes_first_match_once_witness :
    ∃ evs s', counterContract.dispatch (some ⟨22, [7]⟩) = (evs, Except.ok s')
      ∧ evs.filter isInvocation = [Event.invoke 1] := by
  refine dispatch_invokes_first_match_once counterContract 22 [7] 1 setFn [7]
    rfl rfl rfl ?_ rfl
  intro k fn' hk hg
  interval_cases k
  simp [counterContract, List.get?] at hg
  subst hg
  decide

/-- C3: on a successfully dispatched call (first match `F` at index `i`,
arguments decoded), the trace contains exactly one flush when `F.is_mut` and
none otherwise; every flush comes after the invocation of `F` and before any
payload is handed to the environment's finish primitive. -/
theorem flush_gated_by_mutability {S : Type} (c : Contract S) (sel : Nat)
    (data : List Nat) (i : Nat) (fn : ContractFn S) (args : List Nat)
    (hget : c.functions.get? i = some fn)
    (hext : isExternalFn fn = true)
    (hsel : fn.selector = sel)
    (hfirst : ∀ k fn', k < i → c.functions.get? k = some fn' →
      matchesSelector fn' sel = false)
    (hdec : fn.decode data = some args) :
    ∃ evs s', c.dispatch (some ⟨sel, data⟩) = (evs, Except.ok s')
      ∧ evs.countP isFlush = (if fn.is_mut then 1 else 0)
      ∧ (∀ k, evs.get? k = some Event.flush →
          ∃ j, j < k ∧ evs.get? j = some (Event.invoke i))
      ∧ (∀ k m p, evs.get? k = some Event.flush →
          evs.get? m = some (Event.finish p) → k < m) := by
  have hmatch : matchesSelector fn sel = true := by
    simp [matchesSelector, hext, hsel]
  rw [dispatch_first_match c sel data i fn hget hmatch hfirst,
    fragmentResult_decode_some c.flushFn fn i data c.newStorage args hdec]
  exact ⟨_, _, rfl, traceEvents_countP_flush i fn.is_mut fn.outputUnit _,
    traceEvents_flush_after_invoke i fn.is_mut fn.outputUnit _,
    traceEvents_flush_before_finish i fn.is_mut fn.outputUnit _⟩

/-- C3 witness: calling mutating `set` via frame `(22, [3])` flushes exactly
once, after the invocation and before any finish. -/
theorem flush_gated_by_mutability_witness :
    ∃ evs s', counterContract.dispatch (some ⟨22, [3]⟩) = (evs, Except.ok s')
      ∧ evs.countP isFlush = (if setFn.is_mut then 1 else 0)
      ∧ (∀ k, evs.get? k = some Event.flush →
          ∃ j, j < k ∧ evs.get? j = some (Event.invoke 1))
      ∧ (∀ k m p, evs.get? k = some Event.flush →
          evs.get? m = some (Event.finish p) → k < m) := by
  refine flush_gated_by_mutability counterContract 22 [3] 1 setFn [3]
    rfl rfl rfl ?_ rfl
  intro k fn' hk hg
  interval_cases k
  simp [counterContract, List.get?] at hg
  subst hg
  decide

/-- C4: the deploy entry never consults the selector bytes, decodes the
payload against the constructor's input shape only; on success it invokes
the constructor on freshly constructed storage and then flushes exactly once
(trace `[invokeCtor, flush]`); on decode failure it reverts with
"invalid params" with zero invocations and zero flushes. -/
theorem deploy_protocol_correct {S : Type} (c : Contract S) (sel sel' : Nat)
    (data : List Nat) :
    c.deploy (some ⟨sel, data⟩) = c.deploy (some ⟨sel', data⟩)
    ∧ (∀ args, c.ctorDecode data = some args →
        c.deploy (some ⟨sel, data⟩)
          = ([Event.invokeCtor, Event.flush], DeployResult.done,
             some (c.flushFn (c.ctorBody c.newStorage args))))
    ∧ (c.ctorDecode data = none →
        c.deploy (some ⟨sel, data⟩)
          = ([], DeployResult.revert "invalid params", none)) := by
  refine ⟨rfl, ?_, ?_⟩
  · intro args h
    simp [Contract.deploy, h]
  · intro h
    simp [Contract.deploy, h]

/-- C4 witness: deploying the counter contract with payload `[5]` constructs
and flushes once; the empty payload reverts with "invalid params". -/
theorem deploy_protocol_correct_witness :
    counterContract.deploy (some ⟨123, [5]⟩)
      = ([Event.invokeCtor, Event.flush], DeployResult.done, some 5)
    ∧ counterContract.deploy (some ⟨123, []⟩)
      = ([], DeployResult.revert "invalid params", none) :=
  ⟨(deploy_protocol_correct counterContract 123 0 [5]).2.1 [5] rfl,
   (deploy_protocol_correct counterContract 123 0 []).2.2 rfl⟩

/-- C5: on a successfully dispatched call, the environment's finish
primitive receives exactly the encoded invocation result when the matched
function's output type is not unit, and is never called when it is unit. -/
theorem finish_iff_nonunit_output {S : Type} (c : Contract S) (sel : Nat)
    (data : List Nat) (i : Nat) (fn : ContractFn S) (args : List Nat)
    (hget : c.functions.get? i = some fn)
    (hext : isExternalFn fn = true)
    (hsel : fn.selector = sel)
    (hfirst : ∀ k fn', k < i → c.functions.get? k = some fn' →
      matchesSelector fn' sel = false)
    (hdec : fn.decode data = some args) :
    ∃ evs s', c.dispatch (some ⟨sel, data⟩) = (evs, Except.ok s')
      ∧ evs.filter isFinish
        = (if fn.outputUnit then []
           else [Event.finish (fn.body c.newStorage args).2]) := by
  have hmatch : matchesSelector fn sel = true := by
    simp [matchesSelector, hext, hsel]
  rw [dispatch_first_match c sel data i fn hget hmatch hfirst,
    fragmentResult_decode_some c.flushFn fn i data c.newStorage args hdec]
  exact ⟨_, _, rfl, traceEvents_filter_finish i fn.is_mut fn.outputUnit _⟩

/-- C5 witness: the non-unit `get` (frame `(11, [])`) finishes exactly once
with the encoded counter value; nothing else is finished. -/
theorem finish_iff_nonunit_output_witness :
    ∃ evs s', counterContract.dispatch (some ⟨11, []⟩) = (evs, Except.ok s')
      ∧ evs.filter isFinish
        = (if getFn.outputUnit then []
           else [Event.finish (getFn.body counterContract.newStorage []).2]) :=
  finish_iff_nonunit_output counterContract 11 [] 0 getFn [] rfl rfl rfl
    (fun k _ hk _ => absurd hk (Nat.not_lt_zero k)) rfl

/-- C6: a call frame whose selector matches no registered External function
terminates with `UnknownSelector` after scanning all fragments: the event
trace is empty, so zero functions are invoked and zero flushes happen. -/
theorem unknown_selector_no_invocation {S : Type} (c : Contract S) (sel : Nat)
    (data : List Nat)
    (h : ∀ fn ∈ c.functions, isExternalFn fn = true → fn.selector ≠ sel) :
    c.dispatch (some ⟨sel, data⟩)
      = ([], Except.error DispatchError.unknownSelector) := by
  have h' : ∀ fn ∈ c.functions, matchesSelector fn sel = false := by
    intro fn hfn
    cases he : isExternalFn fn
    · simp [matchesSelector, he]
    · have hne := h fn hfn he
      simp [matchesSelector, he, hne]
  have := dispatchLoop_of_no_match c.flushFn sel data c.newStorage c.functions 0 h'
  simpa [Contract.dispatch] using this

/-- C6 witness: frame `(99, [])` matches neither selector 11 nor 22. -/
theorem unknown_selector_no_invocation_witness :
    counterContract.dispatch (some ⟨99, []⟩)
      = ([], Except.error DispatchError.unknownSelector) := by
  apply unknown_selector_no_invocation
  intro fn hfn _
  fin_cases hfn <;> decide

/-- C7: a frame whose selector matches a registered External function (first
match at index `i`) but whose argument bytes fail to decode terminates with
`InvalidParams` and an empty event trace: the matched function is not
invoked and no flush is performed. -/
theorem invalid_params_no_invocation {S : Type} (c : Contract S) (sel : Nat)
    (data : List Nat) (i : Nat) (fn : ContractFn S)
    (hget : c.functions.get? i = some fn)
    (hext : isExternalFn fn = true)
    (hsel : fn.selector = sel)
    (hfirst : ∀ k fn', k < i → c.functions.get? k = some fn' →
      matchesSelector fn' sel = false)
    (hdec : fn.decode data = none) :
    c.dispatch (some ⟨sel, data⟩)
      = ([], Except.error DispatchError.invalidParams) := by
  have hmatch : matchesSelector fn sel = true := by
    simp [matchesSelector, hext, hsel]
  rw [dispatch_first_match c sel data i fn hget hmatch hfirst,
    fragmentResult_decode_none c.flushFn fn i data c.newStorage hdec]

/-- C7 witness: `set` matched by frame `(22, [])` rejects the empty payload:
`InvalidParams`, no invocation, no flush. -/
theorem invalid_params_no_invocation_witness :
    counterContract.dispatch (some ⟨22, []⟩)
      = ([], Except.error DispatchError.invalidParams) := by
  refine invalid_params_no_invocation counterContract 22 [] 1 setFn
    rfl rfl rfl ?_ rfl
  intro k fn' hk hg
  interval_cases k
  simp [counterContract, List.get?] at hg
  subst hg
  decide

/-- C8: a matched function with zero non-receiver parameters decodes via the
empty input shape, which consumes no bytes and succeeds on every payload
(empty or not, excess bytes ignored), so such a call never fails with
`InvalidParams`: it always dispatches successfully and invokes the function. -/
theorem zero_arg_decode_total {S : Type} (c : Contract S) (sel : Nat) (i : Nat)
    (fn : ContractFn S)
    (hget : c.functions.get? i = some fn)
    (hext : isExternalFn fn = true)
    (hsel : fn.selector = sel)
    (hfirst : ∀ k fn', k < i → c.functions.get? k = some fn' →
      matchesSelector fn' sel = false)
    (hdec : fn.decode = unitDecode) :
    ∀ data : List Nat, ∃ evs s',
      c.dispatch (some ⟨sel, data⟩) = (evs, Except.ok s')
        ∧ evs.filter isInvocation = [Event.invoke i] := by
  intro data
  have hdec' : fn.decode data = some [] := by rw [hdec]; rfl
  have hmatch : matchesSelector fn sel = true := by
    simp [matchesSelector, hext, hsel]
  rw [dispatch_first_match c sel data i fn hget hmatch hfirst,
    fragmentResult_decode_some c.flushFn fn i data c.newStorage [] hdec']
  exact ⟨_, _, rfl, traceEvents_filter_invocation i fn.is_mut fn.outputUnit _⟩

/-- C8 witness: zero-parameter `get` dispatches successfully both on the
empty payload and on a non-empty one whose excess bytes are ignored. -/
theorem zero_arg_decode_total_witness :
    (∃ evs s', counterContract.dispatch (some ⟨11, []⟩) = (evs, Except.ok s')
      ∧ evs.filter isInvocation = [Event.invoke 0])
    ∧ (∃ evs s', counterContract.dispatch (some ⟨11, [9, 9, 9]⟩) = (evs, Except.ok s')
      ∧ evs.filter isInvocation = [Event.invoke 0]) :=
  ⟨zero_arg_decode_total counterContract 11 0 getFn rfl rfl rfl
      (fun k _ hk _ => absurd hk (Nat.not_lt_zero k)) rfl [],
   zero_arg_decode_total counterContract 11 0 getFn rfl rfl rfl
      (fun k _ hk _ => absurd hk (Nat.not_lt_zero k)) rfl [9, 9, 9]⟩

/-! ### Lemmas about hex characters and the digit loops -/

/-- Is the character a lowercase hexadecimal digit (`0`-`9` or `a`-`f`)? -/
def isLowerHexDigit (c : Char) : Bool :=
  (48 ≤ c.toNat && c.toNat ≤ 57) || (97 ≤ c.toNat && c.toNat ≤ 102)

theorem char_eq_of_toNat_eq {c d : Char} (h : c.toNat = d.toNat) : c = d :=
  Char.eq_of_val_eq (UInt32.ext h)

theorem toNat_hexDigitChar_low (v : Nat) (h : v ≤ 9) :
    (hexDigitChar v).toNat = 48 + v := by
  interval_cases v <;> decide

theorem toNat_hexDigitChar_high (v : Nat) (h1 : 10 ≤ v) (h2 : v ≤ 15) :
    (hexDigitChar v).toNat = 87 + v := by
  interval_cases v <;> decide

theorem hexDigitChar_lower (v : Nat) (h : v < 16) :
    isLowerHexDigit (hexDigitChar v) = true := by
  interval_cases v <;> decide

theorem lower_hex_ascii (c : Char) (h : isLowerHexDigit c = true) :
    isAsciiChar c = true := by
  have hn : (48 ≤ c.toNat ∧ c.toNat ≤ 57) ∨ (97 ≤ c.toNat ∧ c.toNat ≤ 102) := by
    simpa [isLowerHexDigit, Bool.or_eq_true, Bool.and_eq_true,
      decide_eq_true_eq] using h
  simp only [isAsciiChar, decide_eq_true_eq]
  omega

/-- A lowercase hex digit round-trips through `to_digit(16)` and
`from_digit(·, 16)`. -/
theorem lower_hex_round (c : Char) (h : isLowerHexDigit c = true) :
    ∃ v, toDigit16 c = some v ∧ v < 16 ∧ hexDigitChar v = c := by
  have hn : (48 ≤ c.toNat ∧ c.toNat ≤ 57) ∨ (97 ≤ c.toNat ∧ c.toNat ≤ 102) := by
    simpa [isLowerHexDigit, Bool.or_eq_true, Bool.and_eq_true,
      decide_eq_true_eq] using h
  rcases hn with ⟨h1, h2⟩ | ⟨h1, h2⟩
  · refine ⟨c.toNat - 48, ?_, by omega, ?_⟩
    · unfold toDigit16
      rw [if_pos ⟨h1, h2⟩]
    · apply char_eq_of_toNat_eq
      rw [toNat_hexDigitChar_low (c.toNat - 48) (by omega)]
      omega
  · refine ⟨c.toNat - 87, ?_, by omega, ?_⟩
    · unfold toDigit16
      rw [if_neg (by omega), if_pos ⟨h1, h2⟩]
    · apply char_eq_of_toNat_eq
      rw [toNat_hexDigitChar_high (c.toNat - 87) (by omega) (by omega)]
      omega

/-- On an even-length lowercase-hex character list, the digit loop succeeds
and `bytesToHexChars` inverts it; all produced bytes fit in a `u8`. -/
theorem decodeHexPairs_lower : ∀ cs : List Char,
    (∀ c ∈ cs, isLowerHexDigit c = true) → cs.length % 2 = 0 →
    ∃ bs, decodeHexPairs cs = some bs ∧ bytesToHexChars bs = cs
      ∧ bs.length = cs.length / 2 ∧ ∀ b ∈ bs, b < 256
  | [], _, _ => ⟨[], rfl, rfl, rfl, by simp⟩
  | [_], _, hlen => by simp at hlen
  | c1 :: c2 :: rest, hhex, hlen => by
    obtain ⟨v1, hv1, hv1lt, hc1⟩ := lower_hex_round c1 (hhex c1 (by simp))
    obtain ⟨v2, hv2, hv2lt, hc2⟩ := lower_hex_round c2 (hhex c2 (by simp))
    obtain ⟨bs, hbs, hchars, hblen, hbnd⟩ := decodeHexPairs_lower rest
      (fun c hc => hhex c (by simp [hc]))
      (by simp [List.length_cons] at hlen; omega)
    refine ⟨(v1 * 16 + v2) :: bs, ?_, ?_, ?_, ?_⟩
    · simp [decodeHexPairs, hv1, hv2, hbs]
    · simp only [bytesToHexChars, hchars]
      rw [show (v1 * 16 + v2) / 16 = v1 from by omega,
        show (v1 * 16 + v2) % 16 = v2 from by omega, hc1, hc2]
    · simp only [List.length_cons]
      omega
    · intro b hb
      rcases List.mem_cons.mp hb with hb | hb
      · omega
      · exact hbnd b hb

/-- On an even-length character list the digit loop fails exactly when some
character is not a hexadecimal digit. -/
theorem decodeHexPairs_none_iff : ∀ cs : List Char, cs.length % 2 = 0 →
    (decodeHexPairs cs = none ↔ ∃ c ∈ cs, toDigit16 c = none)
  | [], _ => by simp [decodeHexPairs]
  | [_], h => by simp at h
  | c1 :: c2 :: rest, h => by
    have hr : rest.length % 2 = 0 := by simp [List.length_cons] at h; omega
    have ih := decodeHexPairs_none_iff rest hr
    constructor
    · intro hnone
      rcases h1 : toDigit16 c1 with _ | v1
      · exact ⟨c1, by simp, h1⟩
      rcases h2 : toDigit16 c2 with _ | v2
      · exact ⟨c2, by simp, h2⟩
      rcases h3 : decodeHexPairs rest with _ | bs
      · obtain ⟨c, hc, hcd⟩ := ih.mp h3
        exact ⟨c, by simp [hc], hcd⟩
      · rw [decodeHexPairs] at hnone
        simp [h1, h2, h3] at hnone
    · intro hex
      obtain ⟨c, hc, hcd⟩ := hex
      rcases List.mem_cons.mp hc with rfl | hc'
      · simp [decodeHexPairs, hcd]
      rcases List.mem_cons.mp hc' with rfl | hc''
      · rcases h1 : toDigit16 c1 with _ | v1 <;> simp [decodeHexPairs, h1, hcd]
      · have h3 := ih.mpr ⟨c, hc'', hcd⟩
        rcases h1 : toDigit16 c1 with _ | v1 <;>
          rcases h2 : toDigit16 c2 with _ | v2 <;>
            simp [decodeHexPairs, h1, h2, h3]

/-- When the digit loop succeeds, byte `i` is the value of the `i`-th pair of
hex digits. -/
theorem decodeHexPairs_some_get : ∀ (cs : List Char) (bs : List Nat),
    decodeHexPairs cs = some bs →
    bs.length * 2 = cs.length ∧ ∀ i, i < bs.length → ∃ c1 c2 v1 v2,
      cs.get? (2 * i) = some c1 ∧ cs.get? (2 * i + 1) = some c2
      ∧ toDigit16 c1 = some v1 ∧ toDigit16 c2 = some v2
      ∧ bs.get? i = some (v1 * 16 + v2)
  | [], bs, h => by
    simp [decodeHexPairs] at h
    subst h
    simp
  | [_], bs, h => by simp [decodeHexPairs] at h
  | c1 :: c2 :: rest, bs, h => by
    rcases h1 : toDigit16 c1 with _ | v1 <;>
      rcases h2 : toDigit16 c2 with _ | v2 <;>
        rcases h3 : decodeHexPairs rest with _ | bs' <;>
          rw [decodeHexPairs] at h <;> simp [h1, h2, h3] at h
    obtain ⟨hlen, hidx⟩ := decodeHexPairs_some_get rest bs' h3
    subst h
    constructor
    · simp only [List.length_cons]
      omega
    · intro i hi
      cases i with
      | zero => exact ⟨c1, c2, v1, v2, rfl, rfl, h1, h2, rfl⟩
      | succ j =>
        have hj : j < bs'.length := by
          simpa [List.length_cons] using hi
        obtain ⟨d1, d2, w1, w2, hg1, hg2, hw1, hw2, hbg⟩ := hidx j hj
        refine ⟨d1, d2, w1, w2, ?_, ?_, hw1, hw2, ?_⟩
        · rw [show 2 * (j + 1) = 2 * j + 1 + 1 from by ring]
          exact hg1
        · rw [show 2 * (j + 1) + 1 = (2 * j + 1) + 1 + 1 from by ring]
          exact hg2
        · exact hbg

theorem bytesToHexChars_length : ∀ bs : List Nat,
    (bytesToHexChars bs).length = 2 * bs.length
  | [] => rfl
  | b :: bs => by
    simp [bytesToHexChars, bytesToHexChars_length bs]
    omega

theorem bytesToHexChars_lower : ∀ bs : List Nat, (∀ b ∈ bs, b < 256) →
    ∀ c ∈ bytesToHexChars bs, isLowerHexDigit c = true
  | [], _, c, hc => by simp [bytesToHexChars] at hc
  | b :: bs, hbnd, c, hc => by
    have hb : b < 256 := hbnd b (by simp)
    rcases List.mem_cons.mp hc with rfl | hc'
    · exact hexDigitChar_lower _ (by omega)
    rcases List.mem_cons.mp hc' with rfl | hc''
    · exact hexDigitChar_lower _ (by omega)
    · exact bytesToHexChars_lower bs (fun x hx => hbnd x (by simp [hx])) c hc''

/-- C9: for a string `s` of exactly 64 lowercase hex digits, `Hash::from`
accepts `s` as well as `"0x" ++ s` and `"0X" ++ s`, all yielding the same
hash, whose `to_string` is exactly `"0x" ++ s`; and `to_string` of any hash
always emits `"0x"` followed by 64 lowercase hex digits. -/
theorem hash_hex_roundtrip (s : String)
    (hlen : s.data.length = 64)
    (hhex : ∀ c ∈ s.data, isLowerHexDigit c = true) :
    (∃ h, Hash.fromStr s = some h
      ∧ Hash.fromStr ("0x" ++ s) = some h
      ∧ Hash.fromStr ("0X" ++ s) = some h
      ∧ h.toString = "0x" ++ s)
    ∧ (∀ h : Hash, h.bytes.length = 32 → (∀ b ∈ h.bytes, b < 256) →
        h.toString.data.length = 66
        ∧ h.toString.data.take 2 = ['0', 'x']
        ∧ ∀ c ∈ h.toString.data.drop 2, isLowerHexDigit c = true) := by
  obtain ⟨bs, hbs, hchars, hblen, hbnd⟩ := decodeHexPairs_lower s.data hhex (by omega)
  have hascii : s.data.all isAsciiChar = true := by
    rw [List.all_eq_true]
    intro c hc
    exact lower_hex_ascii c (hhex c hc)
  have hnp : ¬ (s.data.take 2 = ['0', 'x'] ∨ s.data.take 2 = ['0', 'X']) := by
    intro hor
    rcases hor with htake | htake
    · have hmem : 'x' ∈ s.data.take 2 := by rw [htake]; simp
      exact absurd (hhex 'x' (List.take_subset 2 s.data hmem)) (by decide)
    · have hmem : 'X' ∈ s.data.take 2 := by rw [htake]; simp
      exact absurd (hhex 'X' (List.take_subset 2 s.data hmem)) (by decide)
  have hfrom : Hash.fromStr s = some ⟨bs⟩ := by
    simp only [Hash.fromStr, HASH_LENGTH]
    rw [if_pos hascii, if_neg hnp, if_pos (by rw [hlen])]
    rw [hbs]
    rfl
  have hdx : ("0x" ++ s).data = '0' :: 'x' :: s.data := by
    simp [String.data_append]
  have hdX : ("0X" ++ s).data = '0' :: 'X' :: s.data := by
    simp [String.data_append]
  have hfrom0x : Hash.fromStr ("0x" ++ s) = some ⟨bs⟩ := by
    simp only [Hash.fromStr, HASH_LENGTH, hdx]
    rw [if_pos ?hascii2, if_pos ?hpre, if_pos ?hlen2]
    case hascii2 =>
      rw [List.all_cons, List.all_cons, hascii]
      rfl
    case hpre =>
      left
      rfl
    case hlen2 =>
      simp [hlen]
    show (decodeHexPairs (List.drop 2 ('0' :: 'x' :: s.data))).map Hash.mk = _
    rw [List.drop_succ_cons, List.drop_succ_cons, List.drop_zero, hbs]
    rfl
  have hfrom0X : Hash.fromStr ("0X" ++ s) = some ⟨bs⟩ := by
    simp only [Hash.fromStr, HASH_LENGTH, hdX]
    rw [if_pos ?hascii3, if_pos ?hpre3, if_pos ?hlen3]
    case hascii3 =>
      rw [List.all_cons, List.all_cons, hascii]
      rfl
    case hpre3 =>
      right
      rfl
    case hlen3 =>
      simp [hlen]
    show (decodeHexPairs (List.drop 2 ('0' :: 'X' :: s.data))).map Hash.mk = _
    rw [List.drop_succ_cons, List.drop_succ_cons, List.drop_zero, hbs]
    rfl
  have htos : Hash.toString ⟨bs⟩ = "0x" ++ s := by
    apply String.ext
    show '0' :: 'x' :: bytesToHexChars bs = _
    rw [hchars, hdx]
  refine ⟨⟨⟨bs⟩, hfrom, hfrom0x, hfrom0X, htos⟩, ?_⟩
  intro h hl hb
  have hdata2 : h.toString.data = '0' :: 'x' :: bytesToHexChars h.bytes := rfl
  refine ⟨?_, ?_, ?_⟩
  · rw [hdata2]
    simp [bytesToHexChars_length, hl]
  · rw [hdata2]
    rfl
  · intro c hc
    rw [hdata2] at hc
    simp only [List.drop_succ_cons, List.drop_zero] at hc
    exact bytesToHexChars_lower h.bytes hb c hc

/-- C9 witness: the test vector of hash.rs round-trips in all three input
forms, and every well-formed hash stringifies to `0x` plus 64 lowercase hex
digits. -/
theorem hash_hex_roundtrip_witness :
    (∃ h, Hash.fromStr
        "27772adc63db07aae765b71eb2b533064fa781bd57457e1b138592d8198d0959" = some h
      ∧ Hash.fromStr
        ("0x" ++ "27772adc63db07aae765b71eb2b533064fa781bd57457e1b138592d8198d0959")
          = some h
      ∧ Hash.fromStr
        ("0X" ++ "27772adc63db07aae765b71eb2b533064fa781bd57457e1b138592d8198d0959")
          = some h
      ∧ h.toString
        = "0x" ++ "27772adc63db07aae765b71eb2b533064fa781bd57457e1b138592d8198d0959")
    ∧ (∀ h : Hash, h.bytes.length = 32 → (∀ b ∈ h.bytes, b < 256) →
        h.toString.data.length = 66
        ∧ h.toString.data.take 2 = ['0', 'x']
        ∧ ∀ c ∈ h.toString.data.drop 2, isLowerHexDigit c = true) :=
  hash_hex_roundtrip
    "27772adc63db07aae765b71eb2b533064fa781bd57457e1b138592d8198d0959"
    (by decide) (by decide)

/-- `to_digit(16)` fails exactly off the three accepted digit ranges. -/
theorem toDigit16_none_iff (c : Char) :
    toDigit16 c = none ↔
      ¬ ((48 ≤ c.toNat ∧ c.toNat ≤ 57) ∨ (97 ≤ c.toNat ∧ c.toNat ≤ 102)
        ∨ (65 ≤ c.toNat ∧ c.toNat ≤ 70)) := by
  unfold toDigit16
  split_ifs with h1 h2 h3 <;> simp <;> omega

theorem fromStr_not_ascii (s : String) (ha : ¬ s.data.all isAsciiChar = true) :
    Hash.fromStr s = none := by
  simp only [Hash.fromStr]
  rw [if_neg ha]

theorem fromStr_prefixed_eq (s : String) (ha : s.data.all isAsciiChar = true)
    (hp : s.data.take 2 = ['0', 'x'] ∨ s.data.take 2 = ['0', 'X'])
    (hl : s.data.length = 66) :
    Hash.fromStr s = (decodeHexPairs (s.data.drop 2)).map Hash.mk := by
  simp only [Hash.fromStr, HASH_LENGTH]
  rw [if_pos ha, if_pos hp, if_pos (by rw [hl])]

theorem fromStr_prefixed_none (s : String) (ha : s.data.all isAsciiChar = true)
    (hp : s.data.take 2 = ['0', 'x'] ∨ s.data.take 2 = ['0', 'X'])
    (hl : s.data.length ≠ 66) :
    Hash.fromStr s = none := by
  simp only [Hash.fromStr, HASH_LENGTH]
  rw [if_pos ha, if_pos hp, if_neg (by simpa using hl)]

theorem fromStr_plain_eq (s : String) (ha : s.data.all isAsciiChar = true)
    (hp : ¬ (s.data.take 2 = ['0', 'x'] ∨ s.data.take 2 = ['0', 'X']))
    (hl : s.data.length = 64) :
    Hash.fromStr s = (decodeHexPairs s.data).map Hash.mk := by
  simp only [Hash.fromStr, HASH_LENGTH]
  rw [if_pos ha, if_neg hp, if_pos (by rw [hl])]

theorem fromStr_plain_none (s : String) (ha : s.data.all isAsciiChar = true)
    (hp : ¬ (s.data.take 2 = ['0', 'x'] ∨ s.data.take 2 = ['0', 'X']))
    (hl : s.data.length ≠ 64) :
    Hash.fromStr s = none := by
  simp only [Hash.fromStr, HASH_LENGTH]
  rw [if_pos ha, if_neg hp, if_neg (by simpa using hl)]

/-- C10: `Hash::from(&str)` panics exactly when the input is not pure ASCII,
or its length differs from 64 (66 when it starts with `0x` or `0X`), or some
payload character fails `to_digit(16)` — which accepts exactly the digits
`0`-`9`, `a`-`f` and `A`-`F`, upper and lower case; on every other input the
`i`-th byte of the result is the value of the `i`-th pair of hex digits. -/
theorem hash_fromStr_characterization (s : String) :
    (Hash.fromStr s = none ↔
      ¬ s.data.all isAsciiChar = true
      ∨ (if s.data.take 2 = ['0', 'x'] ∨ s.data.take 2 = ['0', 'X']
         then s.data.length ≠ 66 else s.data.length ≠ 64)
      ∨ ∃ c ∈ (if s.data.take 2 = ['0', 'x'] ∨ s.data.take 2 = ['0', 'X']
               then s.data.drop 2 else s.data), toDigit16 c = none)
    ∧ (∀ c : Char, toDigit16 c = none ↔
        ¬ ((48 ≤ c.toNat ∧ c.toNat ≤ 57) ∨ (97 ≤ c.toNat ∧ c.toNat ≤ 102)
          ∨ (65 ≤ c.toNat ∧ c.toNat ≤ 70)))
    ∧ (∀ h, Hash.fromStr s = some h →
        h.bytes.length = 32
        ∧ ∀ i, i < 32 → ∃ c1 c2 v1 v2,
            (if s.data.take 2 = ['0', 'x'] ∨ s.data.take 2 = ['0', 'X']
             then s.data.drop 2 else s.data).get? (2 * i) = some c1
            ∧ (if s.data.take 2 = ['0', 'x'] ∨ s.data.take 2 = ['0', 'X']
               then s.data.drop 2 else s.data).get? (2 * i + 1) = some c2
            ∧ toDigit16 c1 = some v1 ∧ toDigit16 c2 = some v2
            ∧ h.bytes.get? i = some (v1 * 16 + v2)) := by
  refine ⟨?_, toDigit16_none_iff, ?_⟩
  · by_cases ha : s.data.all isAsciiChar = true
    · by_cases hp : s.data.take 2 = ['0', 'x'] ∨ s.data.take 2 = ['0', 'X']
      · by_cases hl : s.data.length = 66
        · have hdlen : (s.data.drop 2).length % 2 = 0 := by
            simp [List.length_drop, hl]
          rw [fromStr_prefixed_eq s ha hp hl]
          constructor
          · intro hm
            refine Or.inr (Or.inr ?_)
            rw [if_pos hp]
            exact (decodeHexPairs_none_iff _ hdlen).mp (Option.map_eq_none'.mp hm)
          · intro hrhs
            rcases hrhs with h | h | h
            · exact absurd ha h
            · rw [if_pos hp] at h
              exact absurd hl h
            · rw [if_pos hp] at h
              rw [(decodeHexPairs_none_iff _ hdlen).mpr h]
              rfl
        · rw [fromStr_prefixed_none s ha hp hl]
          exact iff_of_true rfl (Or.inr (Or.inl (by rw [if_pos hp]; exact hl)))
      · by_cases hl : s.data.length = 64
        · have hdlen : s.data.length % 2 = 0 := by simp [hl]
          rw [fromStr_plain_eq s ha hp hl]
          constructor
          · intro hm
            refine Or.inr (Or.inr ?_)
            rw [if_neg hp]
            exact (decodeHexPairs_none_iff _ hdlen).mp (Option.map_eq_none'.mp hm)
          · intro hrhs
            rcases hrhs with h | h | h
            · exact absurd ha h
            · rw [if_neg hp] at h
              exact absurd hl h
            · rw [if_neg hp] at h
              rw [(decodeHexPairs_none_iff _ hdlen).mpr h]
              rfl
        · rw [fromStr_plain_none s ha hp hl]
          exact iff_of_true rfl (Or.inr (Or.inl (by rw [if_neg hp]; exact hl)))
    · rw [fromStr_not_ascii s ha]
      exact iff_of_true rfl (Or.inl ha)
  · intro h hsome
    by_cases ha : s.data.all isAsciiChar = true
    · by_cases hp : s.data.take 2 = ['0', 'x'] ∨ s.data.take 2 = ['0', 'X']
      · by_cases hl : s.data.length = 66
        · rw [fromStr_prefixed_eq s ha hp hl] at hsome
          obtain ⟨bs, hbs, hmk⟩ := Option.map_eq_some'.mp hsome
          obtain ⟨hlen2, hidx⟩ := decodeHexPairs_some_get _ bs hbs
          have hdl : (s.data.drop 2).length = 64 := by
            rw [List.length_drop, hl]
          subst hmk
          have hbl : bs.length = 32 := by omega
          refine ⟨hbl, ?_⟩
          intro i hi
          rw [if_pos hp]
          exact hidx i (by omega)
        · rw [fromStr_prefixed_none s ha hp hl] at hsome
          exact Option.noConfusion hsome
      · by_cases hl : s.data.length = 64
        · rw [fromStr_plain_eq s ha hp hl] at hsome
          obtain ⟨bs, hbs, hmk⟩ := Option.map_eq_some'.mp hsome
          obtain ⟨hlen2, hidx⟩ := decodeHexPairs_some_get _ bs hbs
          subst hmk
          have hbl : bs.length = 32 := by omega
          refine ⟨hbl, ?_⟩
          intro i hi
          rw [if_neg hp]
          exact hidx i (by omega)
        · rw [fromStr_plain_none s ha hp hl] at hsome
          exact Option.noConfusion hsome
    · rw [fromStr_not_ascii s ha] at hsome
      exact Option.noConfusion hsome

/-- C10 witness: a correctly-prefixed string of wrong total length (the
`invalid_hash` test vector, 62 payload digits) is rejected, and `G` is not a
hex digit. -/
theorem hash_fromStr_characterization_witness :
    Hash.fromStr "0x772adc63db07aae765b71eb2b533064fa781bd57457e1b138592d8198d0959"
      = none
    ∧ toDigit16 'G' = none :=
  ⟨(hash_fromStr_characterization
      "0x772adc63db07aae765b71eb2b533064fa781bd57457e1b138592d8198d0959").1.mpr
      (Or.inr (Or.inl (by decide))),
   ((hash_fromStr_characterization "G").2.1 'G').mpr (by decide)⟩

end Liquid
